import Mathlib

/-!
# A verification development for the PySimpleDB storage engine

Shallow embedding of the storage layer of the PySimpleDB database
(`simpledb/plain_storage/{file,lock,bufferslot}.py`,
`simpledb/formatted_storage/{log,recovery,tx}.py`,
`simpledb/formatted_storage/index/btree.py`), together with theorems about
the lock table, the recovery manager, write-ahead logging, the log manager's
block layout, page value round-trips and the B-tree leaf operations.

Conventions used throughout:
* Machine integers are modelled as `Int` (Python ints are unbounded; the
  4-byte page codecs apply `% 2^32` explicitly where the code packs them).
* A disk page is modelled either at byte granularity (`BPage := Nat → Nat`,
  for the log manager and the `MaxPage` codecs) or at the granularity of
  typed cells (`CellVal`, for the buffer / recovery layer, where the claims
  are about which value sits at a (block, offset) location).
* Methods that raise exceptions are embedded with `Except`/`Option` results.
* `BLOCK_SIZE = 400` (`shared_service/macro.py`).
-/

namespace PySimpleDB

/-- A reference to a disk block: file name plus block number
(`plain_storage/file.py`, class `Block`). -/
structure Blk where
  fileName : String
  number : Int
deriving DecidableEq, Repr

/-- `str.startswith` on Python strings, used by `RecoveryMgr.__is_temp_block`
and the file manager's temp-file cleanup. -/
def str_starts_with (s pre : String) : Bool :=
  List.isPrefixOf pre.data s.data

/-! ## Lock table and lock manager (`plain_storage/lock.py`)

The lock table maps blocks to an integer lock value: `0`/absent = unlocked,
`n > 0` = `n` shared locks, `-1` = exclusive.  Python's `dict` is embedded as an
association list (`dict_get`/`dict_set`); the condition-variable wait is
collapsed to its timeout outcome (nothing changes the table while a
single transaction waits, so the loop exits by `__waiting_too_long` and the
method raises `LockAbortException`, embedded as `Except.error ()`). -/

/-- `d.get(key)` on a Python dict embedded as an association list. -/
def dict_get {α : Type} (l : List (Blk × α)) (b : Blk) : Option α :=
  (l.find? (fun p => p.1 == b)).map (fun p => p.2)

/-- `d[key] = v` on a Python dict embedded as an association list. -/
def dict_set {α : Type} (l : List (Blk × α)) (b : Blk) (v : α) : List (Blk × α) :=
  if l.any (fun p => p.1 == b) then
    l.map (fun p => if p.1 == b then (p.1, v) else p)
  else
    l ++ [(b, v)]

/-- The state of one `PageLockTable`: the `_locks` dict. -/
abbrev PageLockTable := List (Blk × Int)

/-- `PageLockTable.__get_lock_val`: `self._locks.get(blk, 0)`. -/
def PageLockTable.get_lock_val (t : PageLockTable) (b : Blk) : Int :=
  (dict_get t b).getD 0

/-- `PageLockTable.__has_xlock`: the lock value is negative. -/
def PageLockTable.has_xlock (t : PageLockTable) (b : Blk) : Bool :=
  t.get_lock_val b < 0

/-- `PageLockTable.__has_other_slocks`: the lock value exceeds 1. -/
def PageLockTable.has_other_slocks (t : PageLockTable) (b : Blk) : Bool :=
  t.get_lock_val b > 1

/-- `PageLockTable.slock`: after the wait loop times out, abort if an
exclusive lock is still present, otherwise increment the share count. -/
def PageLockTable.slock (t : PageLockTable) (b : Blk) : Except Unit PageLockTable :=
  if t.has_xlock b then .error ()
  else .ok (dict_set t b (t.get_lock_val b + 1))

/-- `PageLockTable.xlock`: after the wait loop times out, abort if other
shared locks are still present, otherwise store `-1`. -/
def PageLockTable.xlock (t : PageLockTable) (b : Blk) : Except Unit PageLockTable :=
  if t.has_other_slocks b then .error ()
  else .ok (dict_set t b (-1))

/-- The per-transaction `PageLockMgr`.  The constructor stores a freshly
constructed `PageLockTable` on the instance (`self._locktbl = PageLockTable()`),
even though its docstring describes the table as static and shared by all
transactions; the embedding is faithful to the code. -/
structure PageLockMgr where
  locktbl : PageLockTable
  locks : List (Blk × String)
deriving DecidableEq, Repr

/-- `PageLockMgr.__init__`: a brand-new lock table and an empty lock set. -/
def PageLockMgr.mk_new : PageLockMgr := ⟨[], []⟩

/-- `PageLockMgr.__has_xlock`. -/
def PageLockMgr.has_xlock (m : PageLockMgr) (b : Blk) : Bool :=
  match dict_get m.locks b with
  | some t => t == "X"
  | none => false

/-- `PageLockMgr.slock`: ask the table for an S-lock only if this
transaction holds no lock on the block yet. -/
def PageLockMgr.slock (m : PageLockMgr) (b : Blk) : Except Unit PageLockMgr :=
  match dict_get m.locks b with
  | none =>
    match m.locktbl.slock b with
    | .error e => .error e
    | .ok t => .ok ⟨t, dict_set m.locks b "S"⟩
  | some _ => .ok m

/-- `PageLockMgr.xlock`: first S-lock (if needed), then upgrade. -/
def PageLockMgr.xlock (m : PageLockMgr) (b : Blk) : Except Unit PageLockMgr :=
  if m.has_xlock b then .ok m
  else
    match m.slock b with
    | .error e => .error e
    | .ok m1 =>
      match m1.locktbl.xlock b with
      | .error e => .error e
      | .ok t => .ok ⟨t, dict_set m1.locks b "X"⟩

/-! ## Typed page cells, buffers and the record-level log

For the buffer / recovery layer pages are viewed at the granularity of typed
values stored at byte offsets (`CellVal`), which is the granularity at which
`BufferSlot.get_int`/`set_int`/`get_string`/`set_string` and the recovery
records operate. -/

/-- A typed value stored at some offset of a page; `undef` models bytes that
have never been given a typed value (reading them is "unpredictable" per the
source docstrings, embedded as the defaults `0` / `""`). -/
inductive CellVal where
  | undef
  | intV (n : Int)
  | strV (s : String)
deriving DecidableEq, Repr

/-- A recovery log record (`formatted_storage/recovery.py`).  `set_int_rec` /
`set_string_rec` store the transaction id, the target block and offset and the
*previous* value at that target (the undo image). -/
inductive RRec where
  | checkpoint
  | start (txnum : Int)
  | commit (txnum : Int)
  | rollback (txnum : Int)
  | set_int_rec (txnum : Int) (blk : Blk) (offset : Nat) (val : Int)
  | set_string_rec (txnum : Int) (blk : Blk) (offset : Nat) (val : String)
deriving DecidableEq, Repr

/-- Observable actions of the storage engine, used to state ordering
(write-ahead-logging) properties. -/
inductive Act where
  | force_log (lsn : Int)
  | write_blk (blk : Blk)
  | append_rec (r : RRec)
  | release_locks
  | unpin_all
deriving DecidableEq, Repr

/-- `LogMgr.append` at record granularity: the record is appended and its LSN
returned.  LSNs are abstracted to the record's index in the log; in the code
the LSN is the number of the log block holding the record, which is monotone
in this index. -/
def log_append (log : List RRec) (r : RRec) : List RRec × Int :=
  (log ++ [r], (log.length : Int))

/-- A buffer slot (`plain_storage/bufferslot.py`, class `BufferSlot`):
a page, the block it is bound to, a pin count, the id of the last modifying
transaction (`-1` = clean) and the LSN of the corresponding log record. -/
structure BufferSlot where
  contents : Nat → CellVal
  blk : Option Blk
  pins : Int
  modified_by : Int
  log_sequence_number : Int

/-- `BufferSlot.__init__`: fresh page, no block, unpinned, clean. -/
def BufferSlot.empty : BufferSlot :=
  ⟨fun _ => .undef, none, 0, -1, -1⟩

/-- `BufferSlot.get_int` (default `0` where no integer was stored). -/
def BufferSlot.get_int (b : BufferSlot) (offset : Nat) : Int :=
  match b.contents offset with
  | .intV n => n
  | _ => 0

/-- `BufferSlot.get_string` (default `""` where no string was stored). -/
def BufferSlot.get_string (b : BufferSlot) (offset : Nat) : String :=
  match b.contents offset with
  | .strV s => s
  | _ => ""

/-- `BufferSlot.set_int`: record the modifying transaction, adopt the LSN
only when it is non-negative, then write the value into the page. -/
def BufferSlot.set_int (b : BufferSlot) (offset : Nat) (val : Int)
    (txnum lsn : Int) : BufferSlot :=
  { b with
    modified_by := txnum
    log_sequence_number :=
      if lsn ≥ 0 then lsn else b.log_sequence_number
    contents := fun i => if i = offset then .intV val else b.contents i }

/-- `BufferSlot.set_string`: same bookkeeping as `set_int`. -/
def BufferSlot.set_string (b : BufferSlot) (offset : Nat) (val : String)
    (txnum lsn : Int) : BufferSlot :=
  { b with
    modified_by := txnum
    log_sequence_number :=
      if lsn ≥ 0 then lsn else b.log_sequence_number
    contents := fun i => if i = offset then .strV val else b.contents i }

/-- `BufferSlot.is_pinned`. -/
def BufferSlot.is_pinned (b : BufferSlot) : Bool := b.pins > 0

/-- `BufferSlot.is_modified_by`. -/
def BufferSlot.is_modified_by (b : BufferSlot) (txnum : Int) : Bool :=
  b.modified_by == txnum

/-- The storage engine state shared by the buffer and recovery managers:
the disk image, the buffer pool and the (record-level) log. -/
structure Sys where
  disk : Blk → Nat → CellVal
  pool : List BufferSlot
  log : List RRec

/-- `BufferSlot.flush`: if the buffer is dirty (`modified_by > 0`), first
force the log up to the buffer's LSN, then write the page to its bound block,
then clear `modified_by`.  Returns the new buffer, the new system state and
the trace of actions performed, in order.  (A dirty buffer always has a bound
block in the running system; the `getD` default covers the unreachable
`None` case, where the code would raise.) -/
def BufferSlot.flush (b : BufferSlot) (sys : Sys) : BufferSlot × Sys × List Act :=
  if b.modified_by > 0 then
    let bb := b.blk.getD ⟨"", 0⟩
    ({ b with modified_by := -1 },
     { sys with disk := fun x => if x = bb then b.contents else sys.disk x },
     [Act.force_log b.log_sequence_number, Act.write_blk bb])
  else
    (b, sys, [])

/-- Flush the pool slot at index `i` in place. -/
def flush_at (sys : Sys) (i : Nat) : Sys × List Act :=
  let b := sys.pool.getD i BufferSlot.empty
  let r := b.flush sys
  ({ r.2.1 with pool := r.2.1.pool.set i r.1 }, r.2.2)

/-- One step of `BasicBufferMgr.flush_all`: flush slot `i` if it was
modified by the transaction. -/
def flush_all_step (txnum : Int) (acc : Sys × List Act) (i : Nat) :
    Sys × List Act :=
  if (acc.1.pool.getD i BufferSlot.empty).is_modified_by txnum then
    let r := flush_at acc.1 i
    (r.1, acc.2 ++ r.2)
  else acc

/-- `BasicBufferMgr.flush_all`: flush every pool buffer modified by the given
transaction, in pool order, concatenating the action traces. -/
def BasicBufferMgr.flush_all (txnum : Int) (sys : Sys) : Sys × List Act :=
  (List.range sys.pool.length).foldl (flush_all_step txnum) (sys, [])

/-- `BasicBufferMgr.__find_existing_buffer`: index of a buffer already bound
to the block, if any. -/
def find_existing_buffer (pool : List BufferSlot) (b : Blk) : Option Nat :=
  (List.range pool.length).find?
    (fun i => (pool.getD i BufferSlot.empty).blk == some b)

/-- `BasicBufferMgr.__choose_unpinned_buffer`: index of the first unpinned
buffer, if any. -/
def choose_unpinned_buffer (pool : List BufferSlot) : Option Nat :=
  (List.range pool.length).find?
    (fun i => !(pool.getD i BufferSlot.empty).is_pinned)

/-- `BufferSlot.assign_to_block`: flush the old contents if dirty, bind the
buffer to the block, read the block from disk, reset the pin count. -/
def assign_to_block (sys : Sys) (i : Nat) (b : Blk) : Sys :=
  let r := flush_at sys i
  let sys1 := r.1
  let old := sys1.pool.getD i BufferSlot.empty
  { sys1 with
    pool := sys1.pool.set i
      { old with blk := some b, contents := sys1.disk b, pins := 0 } }

/-- Increment the pin count of slot `i` (`BufferSlot.pin`). -/
def pin_at (sys : Sys) (i : Nat) : Sys :=
  let b := sys.pool.getD i BufferSlot.empty
  { sys with pool := sys.pool.set i { b with pins := b.pins + 1 } }

/-- Decrement the pin count of slot `i` (`BufferSlot.unpin`). -/
def unpin_at (sys : Sys) (i : Nat) : Sys :=
  let b := sys.pool.getD i BufferSlot.empty
  { sys with pool := sys.pool.set i { b with pins := b.pins - 1 } }

/-- `BufferMgr.pin` / `BasicBufferMgr.pin`: reuse an existing binding or
assign an unpinned buffer; `none` models `BufferAbortException` after the
wait loop times out with no buffer available. -/
def buffer_pin (sys : Sys) (b : Blk) : Option (Sys × Nat) :=
  match find_existing_buffer sys.pool b with
  | some i => some (pin_at sys i, i)
  | none =>
    match choose_unpinned_buffer sys.pool with
    | none => none
    | some i => some (pin_at (assign_to_block sys i b) i, i)

/-- `SetIntRecord.undo`: pin a buffer to the block, restore the saved value
with a dummy LSN, unpin.  Faithfully to the code, the buffer is tagged with
`self._txnum` — the transaction id stored in the log record — not with the id
of the transaction performing the undo. -/
def SetIntRecord.undo (rec_txnum : Int) (blk : Blk) (offset : Nat) (val : Int)
    (sys : Sys) : Option Sys :=
  (buffer_pin sys blk).map (fun r =>
    let b := r.1.pool.getD r.2 BufferSlot.empty
    unpin_at
      { r.1 with pool := r.1.pool.set r.2 (b.set_int offset val rec_txnum (-1)) }
      r.2)

/-- `SetStringRecord.undo`: as `SetIntRecord.undo`, but — again faithfully to
the code — the buffer is tagged with `txnum`, the id of the transaction
performing the undo. -/
def SetStringRecord.undo (undoer_txnum : Int) (blk : Blk) (offset : Nat)
    (val : String) (sys : Sys) : Option Sys :=
  (buffer_pin sys blk).map (fun r =>
    let b := r.1.pool.getD r.2 BufferSlot.empty
    unpin_at
      { r.1 with pool := r.1.pool.set r.2 (b.set_string offset val undoer_txnum (-1)) }
      r.2)

/-- `RecoveryMgr.__do_recover`, iterating the records newest-first:
stop at a `CHECKPOINT`, collect `COMMIT`/`ROLLBACK` transaction ids as
finished, undo every record of a non-finished transaction (only the two SET
record kinds have a non-trivial undo).  `none` models an exception escaping
from an undo's buffer pin. -/
def do_recover_go (me : Int) : List RRec → List Int → Sys → Option Sys
  | [], _, sys => some sys
  | r :: rest, finished, sys =>
    match r with
    | .checkpoint => some sys
    | .commit tx => do_recover_go me rest (finished ++ [tx]) sys
    | .rollback tx => do_recover_go me rest (finished ++ [tx]) sys
    | .start _ => do_recover_go me rest finished sys
    | .set_int_rec tx blk offset val =>
      if finished.contains tx then do_recover_go me rest finished sys
      else (SetIntRecord.undo tx blk offset val sys).bind
        (do_recover_go me rest finished)
    | .set_string_rec tx blk offset val =>
      if finished.contains tx then do_recover_go me rest finished sys
      else (SetStringRecord.undo me blk offset val sys).bind
        (do_recover_go me rest finished)

/-- `RecoveryMgr.recover`: run `__do_recover` over the log in reverse order,
flush the buffers modified by this (synthetic) transaction, then append a
`CHECKPOINT` record and force the log up to its LSN. -/
def RecoveryMgr.recover (me : Int) (sys : Sys) : Option (Sys × List Act) :=
  (do_recover_go me sys.log.reverse [] sys).map (fun s1 =>
    let r := BasicBufferMgr.flush_all me s1
    let ap := log_append r.1.log .checkpoint
    ({ r.1 with log := ap.1 },
     r.2 ++ [Act.append_rec .checkpoint, Act.force_log ap.2]))

/-- `RecoveryMgr.commit`: flush every buffer modified by this transaction,
append a `COMMIT` record, force the log up to its LSN. -/
def RecoveryMgr.commit (txnum : Int) (sys : Sys) : Sys × List Act :=
  let r := BasicBufferMgr.flush_all txnum sys
  let ap := log_append r.1.log (.commit txnum)
  ({ r.1 with log := ap.1 },
   r.2 ++ [Act.append_rec (.commit txnum), Act.force_log ap.2])

/-- `Transaction.commit`: the recovery manager's commit, then release all
locks, then unpin this transaction's buffers. -/
def Transaction.commit (txnum : Int) (sys : Sys) : Sys × List Act :=
  let r := RecoveryMgr.commit txnum sys
  (r.1, r.2 ++ [Act.release_locks, Act.unpin_all])

/-- `RecoveryMgr.__is_temp_block`: the block's file name begins with
`"temp"`. -/
def is_temp_block (blk : Blk) : Bool :=
  str_starts_with blk.fileName "temp"

/-- `RecoveryMgr.set_int`: read the previous value from the buffer; for a
temp-file block return the sentinel `-1` without logging, otherwise append a
`SETINT` undo record (holding the previous value) and return its LSN.  The
new value is not consulted. -/
def RecoveryMgr.set_int (txnum : Int) (buff : BufferSlot) (offset : Nat)
    (_newval : Int) (log : List RRec) : List RRec × Int :=
  let oldval := buff.get_int offset
  let blk := buff.blk.getD ⟨"", 0⟩
  if is_temp_block blk then (log, -1)
  else log_append log (.set_int_rec txnum blk offset oldval)

/-- `RecoveryMgr.set_string`: as `set_int` with a `SETSTRING` record. -/
def RecoveryMgr.set_string (txnum : Int) (buff : BufferSlot) (offset : Nat)
    (_newval : String) (log : List RRec) : List RRec × Int :=
  let oldval := buff.get_string offset
  let blk := buff.blk.getD ⟨"", 0⟩
  if is_temp_block blk then (log, -1)
  else log_append log (.set_string_rec txnum blk offset oldval)

/-! ## B-tree leaf pages (`formatted_storage/index/btree.py`)

Leaf records are embedded with integer keys (`IntConstant` datavals); a page
is its flag plus the ordered list of its records; the leaf file is the list
of its pages.  `record_length` (`slotsize`) is a parameter.  Reading a slot
beyond the stored records yields the formatter's default record (all
zeroes). -/

/-- A leaf index record: `dataval`, and the dataRID's `block` and `id`
fields. -/
structure BTLeafRec where
  dataval : Int
  block : Int
  id : Int
deriving DecidableEq, Repr

/-- A RID: block number and record id (`formatted_storage/record.py`). -/
structure RID where
  blknum : Int
  id : Int
deriving DecidableEq, Repr

/-- A directory entry: the first dataval of a block plus its number. -/
structure DirEntry where
  dataval : Int
  blocknum : Int
deriving DecidableEq, Repr

/-- A B-tree page: the flag (first header int) and the record list (whose
length is the second header int, `num_recs`). -/
structure BTPage where
  flag : Int
  recs : List BTLeafRec
deriving DecidableEq, Repr

/-- The state of a `BTreeLeaf`: the leaf file, the number of the current
block within it, the cursor and the search key. -/
structure BTreeLeafSt where
  file : List BTPage
  curblk : Nat
  currentslot : Int
  searchkey : Int
deriving DecidableEq, Repr

/-- The page of the current block. -/
def BTreeLeafSt.page (st : BTreeLeafSt) : BTPage :=
  st.file.getD st.curblk ⟨-1, []⟩

/-- `BTreePage.get_data_val`: the dataval at a slot; slots beyond the record
count read the formatter's all-zero default record. -/
def BTPage.get_data_val (p : BTPage) (slot : Int) : Int :=
  (p.recs.getD slot.toNat ⟨0, 0, 0⟩).dataval

/-- `BTreePage.get_num_recs`. -/
def BTPage.get_num_recs (p : BTPage) : Int :=
  (p.recs.length : Int)

/-- `BTreePage.is_full`, verbatim from the source:
`self.__slotpos(self.get_num_recs() + 1) < MaxPage.BLOCK_SIZE` with
`__slotpos(slot) = INT_SIZE + INT_SIZE + slot * slotsize`. -/
def BTPage.is_full (slotsize : Nat) (p : BTPage) : Bool :=
  4 + 4 + (p.recs.length + 1) * slotsize < 400

/-- Insert an element at a list position (record slots shift up, as
`BTreePage.__insert` does by copying). -/
def list_insert_at {α : Type} : Nat → α → List α → List α
  | 0, a, l => a :: l
  | _ + 1, a, [] => [a]
  | n + 1, a, x :: xs => x :: list_insert_at n a xs

/-- Replace the current page by `p`. -/
def BTreeLeafSt.put_page (st : BTreeLeafSt) (p : BTPage) : BTreeLeafSt :=
  { st with file := st.file.set st.curblk p }

/-- `BTreePage.set_flag` on the current block. -/
def BTreeLeafSt.set_flag (st : BTreeLeafSt) (v : Int) : BTreeLeafSt :=
  st.put_page { st.page with flag := v }

/-- `BTreePage.insert_leaf` on the current block: shift slots up from `slot`
and store the search key and dataRID there. -/
def BTreeLeafSt.insert_leaf (st : BTreeLeafSt) (slot : Int) (key : Int)
    (rid : RID) : BTreeLeafSt :=
  st.put_page
    { st.page with
      recs := list_insert_at slot.toNat ⟨key, rid.blknum, rid.id⟩ st.page.recs }

/-- `BTreePage.split`: append a new block (numbered by the file size) holding
the records from `splitpos` on, with the given flag; the current block keeps
the records before `splitpos`.  Returns the new block's number. -/
def BTreeLeafSt.split (st : BTreeLeafSt) (splitpos : Nat) (flag : Int) :
    BTreeLeafSt × Nat :=
  let p := st.page
  let newblknum := st.file.length
  let st1 := st.put_page { p with recs := p.recs.take splitpos }
  ({ st1 with file := st1.file ++ [⟨flag, p.recs.drop splitpos⟩] }, newblknum)

/-- `BTreePage.find_slot_befor`: the slot before the position where the first
record with the search key would sit (`-1` when it would sit at slot 0). -/
def BTPage.find_slot_befor (p : BTPage) (searchkey : Int) : Int :=
  (((p.recs.takeWhile (fun r => r.dataval < searchkey)).length : Int)) - 1

/-- The `while get_data_val(splitpos) == splitkey: splitpos += 1` loop of
`BTreeLeaf.insert`, fuelled by the record count. -/
def move_split_right (p : BTPage) (k : Int) : Nat → Nat → Nat
  | 0, sp => sp
  | fuel + 1, sp =>
    if p.get_data_val (sp : Int) = k then move_split_right p k fuel (sp + 1)
    else sp

/-- The `while get_data_val(splitpos - 1) == splitkey: splitpos -= 1` loop of
`BTreeLeaf.insert`. -/
def move_split_left (p : BTPage) (k : Int) : Nat → Nat → Nat
  | 0, sp => sp
  | fuel + 1, sp =>
    if p.get_data_val ((sp : Int) - 1) = k then move_split_left p k fuel (sp - 1)
    else sp

/-- `BTreeLeaf.insert`, line by line: the overflow-safe prepend when the page
has an overflow chain and the new key is lowest; otherwise insert after the
cursor; if `is_full` reports the page not full, return `none`; otherwise if
all keys are equal split off an overflow block (all records except slot 0),
point the flag at it and return `none`; otherwise split around the middle and
return the new page's directory entry. -/
def BTreeLeaf.insert (slotsize : Nat) (st : BTreeLeafSt) (data_rid : RID) :
    BTreeLeafSt × Option DirEntry :=
  let p := st.page
  if p.flag ≥ 0 ∧ p.get_data_val 0 > st.searchkey then
    let firstval := p.get_data_val 0
    let r := st.split 0 p.flag
    let st2 := { r.1 with currentslot := 0 }
    let st3 := st2.set_flag (-1)
    let st4 := st3.insert_leaf 0 st.searchkey data_rid
    (st4, some ⟨firstval, (r.2 : Int)⟩)
  else
    let st1 := { st with currentslot := st.currentslot + 1 }
    let st2 := st1.insert_leaf st1.currentslot st.searchkey data_rid
    let p2 := st2.page
    if p2.is_full slotsize = false then (st2, none)
    else
      let firstkey := p2.get_data_val 0
      let lastkey := p2.get_data_val (p2.get_num_recs - 1)
      if lastkey = firstkey then
        let r := st2.split 1 p2.flag
        (r.1.set_flag (r.2 : Int), none)
      else
        let splitpos := p2.recs.length / 2
        let splitkey := p2.get_data_val (splitpos : Int)
        if splitkey = firstkey then
          let sp := move_split_right p2 splitkey p2.recs.length splitpos
          let splitkey2 := p2.get_data_val (sp : Int)
          let r := st2.split sp (-1)
          (r.1, some ⟨splitkey2, (r.2 : Int)⟩)
        else
          let sp := move_split_left p2 splitkey p2.recs.length splitpos
          let r := st2.split sp (-1)
          (r.1, some ⟨splitkey, (r.2 : Int)⟩)

/-- `BTreeIndex.get_data_rid`, fuelled.  The method body is
`if not self._leaf is None: return self.get_data_rid()` — it calls *itself*
(not `self._leaf.get_data_rid()`) with unchanged state, so on a positioned
scan it recurses forever; with the leaf unset it falls off the end and
returns Python `None`.  The outer `none` marks fuel exhaustion, i.e. no
answer after `fuel` recursive calls. -/
def BTreeIndex.get_data_rid : Nat → Option BTreeLeafSt → Option (Option RID)
  | 0, _ => none
  | fuel + 1, leaf =>
    match leaf with
    | some l => BTreeIndex.get_data_rid fuel (some l)
    | none => some none

/-! ## Byte-level pages and the `MaxPage` codecs (`plain_storage/file.py`)

A page is a byte array, embedded as `Nat → Nat`; every write stores byte
values (`< 256`).  `struct.pack("i"/"I", ·)` uses the platform's native
little-endian layout; strings are stored as a 4-byte length prefix (the
encoded byte count) followed by the UTF-32 big-endian payload. -/

/-- A byte-level page. -/
abbrev BPage := Nat → Nat

/-- Write the byte list `l` at offset `off`. -/
def bwrite (p : BPage) (off : Nat) (l : List Nat) : BPage :=
  fun i => if off ≤ i ∧ i < off + l.length then l.getD (i - off) 0 else p i

/-- Read `n` bytes at offset `off`. -/
def bread (p : BPage) (off n : Nat) : List Nat :=
  (List.range n).map (fun i => p (off + i))

/-- `struct.pack("i"/"I", v)`: the 4 little-endian bytes of `v mod 2^32`. -/
def encode_int32 (v : Int) : List Nat :=
  let n := (v % 4294967296).toNat
  [n % 256, n / 256 % 256, n / 65536 % 256, n / 16777216 % 256]

/-- `struct.unpack("i", bytes)`: reassemble little-endian, two's complement. -/
def decode_int32 (l : List Nat) : Int :=
  let u := l.getD 0 0 + l.getD 1 0 * 256 + l.getD 2 0 * 65536 +
    l.getD 3 0 * 16777216
  if u < 2147483648 then (u : Int) else (u : Int) - 4294967296

/-- The UTF-32 big-endian encoding of one character: 4 bytes, most
significant first. -/
def encode_char (c : Char) : List Nat :=
  let v := c.toNat
  [v / 16777216 % 256, v / 65536 % 256, v / 256 % 256, v % 256]

/-- `val.encode("utf-32-be")` over the character list. -/
def encode_utf32 : List Char → List Nat
  | [] => []
  | c :: cs => encode_char c ++ encode_utf32 cs

/-- `bytes.decode("utf-32-be")`: decode 4 bytes at a time (the code only ever
decodes payloads it encoded, whose length is a multiple of 4). -/
def decode_utf32 : List Nat → List Char
  | b0 :: b1 :: b2 :: b3 :: rest =>
    Char.ofNat (b0 * 16777216 + b1 * 65536 + b2 * 256 + b3) :: decode_utf32 rest
  | _ => []

/-- `MaxPage.str_size`: 4 length-prefix bytes plus `MAX_BYTES_PER_CHAR = 4`
bytes per character. -/
def MaxPage.str_size (n : Nat) : Nat := 4 + n * 4

/-- `MaxPage.set_int` (via `Page.set_int`, `struct.pack_into("i", ...)`). -/
def MaxPage.set_int (p : BPage) (off : Nat) (v : Int) : BPage :=
  bwrite p off (encode_int32 v)

/-- `MaxPage.get_int` (via `Page.get_int`, `struct.unpack_from("i", ...)`). -/
def MaxPage.get_int (p : BPage) (off : Nat) : Int :=
  decode_int32 (bread p off 4)

/-- `MaxPage.set_string`: the 4-byte length prefix (`struct.pack("I", size)`,
where `size` is the byte count of the UTF-32-BE payload) followed by the
payload. -/
def MaxPage.set_string (p : BPage) (off : Nat) (s : String) : BPage :=
  let payload := encode_utf32 s.data
  bwrite p off (encode_int32 (payload.length : Int) ++ payload)

/-- `MaxPage.get_string`: read the size; if it is non-positive or exceeds 400
return `""`, otherwise decode that many payload bytes as UTF-32-BE. -/
def MaxPage.get_string (p : BPage) (off : Nat) : String :=
  let size := MaxPage.get_int p off
  if size ≤ 0 ∨ size > 400 then ""
  else ⟨decode_utf32 (bread p (off + 4) size.toNat)⟩

/-! ## The log manager (`formatted_storage/log.py`)

The log manager owns one in-memory page, the current block and the position
`currentpos` at which the next value will be written; the log file is the
list of its on-disk pages.  A record is a list of integer and string
values. -/

/-- A value inside a low-level log record. -/
inductive LogVal where
  | intV (v : Int)
  | strV (s : String)
deriving DecidableEq, Repr

/-- `LogMgr.__size` of one value. -/
def logval_size : LogVal → Nat
  | .intV _ => 4
  | .strV s => MaxPage.str_size s.length

/-- The size of a record: 4 bytes for the back-pointer plus the value
sizes. -/
def rec_size (rec : List LogVal) : Nat :=
  rec.foldl (fun acc v => acc + logval_size v) 4

/-- The log manager's state. -/
structure LogMgrSt where
  mypage : BPage
  logfile : String
  currentblk : Blk
  currentpos : Nat
  file_blocks : List BPage

/-- `LogMgr.__flush`: write the current page to the current block. -/
def LogMgrSt.flush_page (st : LogMgrSt) : LogMgrSt :=
  { st with
    file_blocks := st.file_blocks.set st.currentblk.number.toNat st.mypage }

/-- `LogMgr.__append_new_block`: its first statement is
`self._mypage.clear_contents()`, but no class in the repository defines a
`clear_contents` method — `Page` defines only `clear` (`file.py:357`), and
`test_page.py:26` also calls `clear_contents` — so the attribute lookup
raises `AttributeError` before the tail pointer is set or the page is
appended to the file.  `none` embeds the escaping exception; the method has
no successful path. -/
def LogMgrSt.append_new_block (_st : LogMgrSt) : Option LogMgrSt :=
  none

/-- `LogMgr.__append_val`: write one value at `currentpos` and advance it. -/
def LogMgrSt.append_val (st : LogMgrSt) (v : LogVal) : LogMgrSt :=
  match v with
  | .intV n =>
    { st with
      mypage := MaxPage.set_int st.mypage st.currentpos n
      currentpos := st.currentpos + 4 }
  | .strV s =>
    { st with
      mypage := MaxPage.set_string st.mypage st.currentpos s
      currentpos := st.currentpos + MaxPage.str_size s.length }

/-- Write all of a record's values (the `for obj in rec` loop). -/
def LogMgrSt.write_vals (st : LogMgrSt) (rec : List LogVal) : LogMgrSt :=
  rec.foldl LogMgrSt.append_val st

/-- `LogMgr.__finalize_record`: append the back-pointer to the previous
record, update the tail pointer, advance `currentpos`. -/
def LogMgrSt.finalize_record (st : LogMgrSt) : LogMgrSt :=
  let last := MaxPage.get_int st.mypage 0
  let pg1 := MaxPage.set_int st.mypage st.currentpos last
  let pg2 := MaxPage.set_int pg1 0 (st.currentpos : Int)
  { st with mypage := pg2, currentpos := st.currentpos + 4 }

/-- The in-block tail of `LogMgr.append`: write the values, finalize the
record and return the LSN (the current block number). -/
def LogMgr.write_record (st : LogMgrSt) (rec : List LogVal) : LogMgrSt × Int :=
  let st2 := (st.write_vals rec).finalize_record
  (st2, st2.currentblk.number)

/-- `LogMgr.append`: if the record (values plus the 4-byte back-pointer)
does not leave `currentpos + recsize` strictly below `BLOCK_SIZE`, flush the
current page and call `__append_new_block`.  That call always raises
`AttributeError` (see `LogMgrSt.append_new_block`), so the exception escapes
`append` with the flush already performed: `.error` carries the state at
that point.  Otherwise the values are written into the current page, the
record is finalized and its LSN returned. -/
def LogMgr.append (st : LogMgrSt) (rec : List LogVal) :
    Except LogMgrSt (LogMgrSt × Int) :=
  if st.currentpos + rec_size rec ≥ 400 then
    match st.flush_page.append_new_block with
    | none => .error st.flush_page
    | some st1 => .ok (LogMgr.write_record st1 rec)
  else .ok (LogMgr.write_record st rec)

/-- `LogMgr.__init__`, with `existing` the blocks of the log file found on
disk.  On an empty file the constructor calls `__append_new_block`, which
raises `AttributeError` (missing `clear_contents`), so no log manager is
obtained; on a nonempty file it reads the last block and positions
`currentpos` one int past the tail pointer's target. -/
def LogMgr.init (logfile : String) (existing : List BPage) : Option LogMgrSt :=
  if existing.length = 0 then
    LogMgrSt.append_new_block ⟨fun _ => 0, logfile, ⟨logfile, 0⟩, 0, existing⟩
  else
    let mypage := existing.getD (existing.length - 1) (fun _ => 0)
    some
      { mypage := mypage
        logfile := logfile
        currentblk := ⟨logfile, ((existing.length - 1 : Nat) : Int)⟩
        currentpos := (MaxPage.get_int mypage 0).toNat + 4
        file_blocks := existing }

/-! ## Concrete instances used by the scenario theorems -/

/-- A block of an ordinary (non-temp) table file. -/
def the_blk : Blk := ⟨"student.tbl", 0⟩

/-- Crash state for the recovery scenario: transaction 1 wrote value `7` over
the old value `0` at offset 0 of `the_blk`, the page reached disk, the
transaction never finished.  The log holds tx 1's START and the SETINT undo
record; the pool has one (clean, unbound) buffer. -/
def crash_sys : Sys :=
  { disk := fun bl off => if bl = the_blk ∧ off = 0 then .intV 7 else .undef
    pool := [BufferSlot.empty]
    log := [.start 1, .set_int_rec 1 the_blk 0 0] }

/-- A leaf block whose two records both carry key 5, with no overflow chain,
positioned for search key 5 (`find_slot_befor` yields `-1`).  With
`record_length = 100`, three records fill a 400-byte block
(`slotpos 3 = 308 ≤ 400 < slotpos 4`). -/
def full_leaf : BTreeLeafSt :=
  { file := [⟨-1, [⟨5, 10, 1⟩, ⟨5, 20, 2⟩]⟩]
    curblk := 0
    currentslot := -1
    searchkey := 5 }

/-- As `full_leaf` but with a single record: after one insertion the block
holds 2 records and still has room for a third. -/
def roomy_leaf : BTreeLeafSt :=
  { file := [⟨-1, [⟨5, 10, 1⟩]⟩]
    curblk := 0
    currentslot := -1
    searchkey := 5 }

/-- A record of 98 integer values: `rec_size = 4 + 98 * 4 = 396` bytes,
exactly the space remaining in a log page whose tail pointer is 0
(`400 - currentpos` with `currentpos = 4`). -/
def exact_fit_rec : List LogVal := List.replicate 98 (.intV 0)

/-- A one-block log file as the intended fresh layout would leave it: a
zeroed page with tail pointer 0.  Resuming `LogMgr.__init__` on it succeeds
(the nonempty-file branch) and yields `currentpos = 4`. -/
def existing_log_block : BPage := MaxPage.set_int (fun _ => 0) 0 0

/-- A dirty buffer used by witnesses: bound to `the_blk`, modified by
transaction 1, carrying LSN 6. -/
def dirty_buf : BufferSlot :=
  { contents := fun _ => .intV 3
    blk := some the_blk
    pins := 1
    modified_by := 1
    log_sequence_number := 6 }

/-- An empty system state for witnesses. -/
def empty_sys : Sys := ⟨fun _ _ => .undef, [], []⟩

/-! ## Helper lemmas -/

theorem char_ofNat_toNat (c : Char) : Char.ofNat c.toNat = c := by
  have h : Nat.isValidChar c.toNat := c.valid
  simp only [Char.ofNat, h, dif_pos]
  apply Char.eq_of_val_eq
  apply UInt32.eq_of_toBitVec_eq
  apply BitVec.eq_of_toNat_eq
  simp [Char.ofNatAux]
  rfl

theorem char_toNat_lt (c : Char) : c.toNat < 1114112 := by
  have h := c.valid
  show c.val.toNat < 1114112
  rcases h with h | ⟨h1, h2⟩ <;> omega

theorem getD_map_range (l : List Nat) :
    (List.range l.length).map (fun i => l.getD i 0) = l := by
  induction l with
  | nil => rfl
  | cons x xs ih =>
    rw [List.length_cons, List.range_succ_eq_map, List.map_cons, List.map_map]
    simp only [List.getD_cons_zero, Function.comp_def, List.getD_cons_succ]
    rw [ih]

theorem bread_bwrite_sub (p : BPage) (off : Nat) (l : List Nat) (j n : Nat)
    (h : j + n ≤ l.length) :
    bread (bwrite p off l) (off + j) n = (l.drop j).take n := by
  apply List.ext_getElem
  · simp [bread]
    omega
  · intro i h1 h2
    simp only [bread, bwrite, List.getElem_map, List.getElem_range,
      List.getElem_take, List.getElem_drop]
    rw [if_pos (by simp [bread] at h1; omega)]
    have hi : i < n := by simp [bread] at h1; exact h1
    rw [List.getD_eq_getElem _ _ (by omega)]
    congr 1
    omega

theorem bread_bwrite_full (p : BPage) (off : Nat) (l : List Nat) :
    bread (bwrite p off l) off l.length = l := by
  have h := bread_bwrite_sub p off l 0 l.length (by omega)
  simpa using h

theorem encode_int32_length (v : Int) : (encode_int32 v).length = 4 := by
  simp [encode_int32]

theorem decode_encode_int32 (v : Int) (h1 : -2147483648 ≤ v)
    (h2 : v < 2147483648) : decode_int32 (encode_int32 v) = v := by
  simp only [decode_int32, encode_int32, List.getD_cons_zero,
    List.getD_cons_succ]
  split <;> omega

theorem encode_utf32_length (cs : List Char) :
    (encode_utf32 cs).length = 4 * cs.length := by
  induction cs with
  | nil => rfl
  | cons c cs ih =>
    simp only [encode_utf32, List.length_append, ih, encode_char]
    simp [List.length_cons]
    ring

theorem decode_encode_utf32 (cs : List Char) :
    decode_utf32 (encode_utf32 cs) = cs := by
  induction cs with
  | nil => rfl
  | cons c cs ih =>
    have hlt := char_toNat_lt c
    simp only [encode_utf32, encode_char, List.cons_append, List.nil_append]
    rw [decode_utf32, ih]
    congr 1
    have : c.toNat / 16777216 % 256 * 16777216 + c.toNat / 65536 % 256 * 65536 +
        c.toNat / 256 % 256 * 256 + c.toNat % 256 = c.toNat := by omega
    rw [this, char_ofNat_toNat]

theorem set_string_prefix_read (p : BPage) (off : Nat) (s : String) :
    bread (MaxPage.set_string p off s) off 4 =
      encode_int32 ((4 * s.length : Nat) : Int) := by
  unfold MaxPage.set_string
  have h := bread_bwrite_sub p off
    (encode_int32 ((encode_utf32 s.data).length : Int) ++ encode_utf32 s.data)
    0 4 (by rw [List.length_append, encode_int32_length]; omega)
  rw [Nat.add_zero] at h
  rw [h, List.drop_zero]
  rw [show (4 : Nat) =
    (encode_int32 ((encode_utf32 s.data).length : Int)).length from
      (encode_int32_length _).symm]
  rw [List.take_left]
  rw [encode_utf32_length]
  rfl

theorem set_string_payload_read (p : BPage) (off : Nat) (s : String) :
    bread (MaxPage.set_string p off s) (off + 4) (4 * s.length) =
      encode_utf32 s.data := by
  unfold MaxPage.set_string
  have h := bread_bwrite_sub p off
    (encode_int32 ((encode_utf32 s.data).length : Int) ++ encode_utf32 s.data)
    4 (4 * s.length)
    (by rw [List.length_append, encode_int32_length, encode_utf32_length]; rfl)
  have hd :
      (encode_int32 ((encode_utf32 s.data).length : Int) ++
        encode_utf32 s.data).drop 4 = encode_utf32 s.data := by
    rw [show (4 : Nat) =
      (encode_int32 ((encode_utf32 s.data).length : Int)).length from
        (encode_int32_length _).symm]
    exact List.drop_left _ _
  have hsl : s.length = s.data.length := rfl
  rw [h, hd, hsl, ← encode_utf32_length s.data, List.take_length]

/-- **C9.** Writing then reading a typed value at the same page offset
returns the original value, for every integer in 32-bit range and every
string, at every offset where the value fits inside the 400-byte page; the
stored form of a string is the 4-byte length prefix holding the encoded byte
count (`4 * length`) followed by the UTF-32 big-endian payload. -/
theorem c9_page_value_roundtrip (p : BPage) (off : Nat) (v : Int) (s : String)
    (hlo : -2147483648 ≤ v) (hhi : v < 2147483648)
    (hint_fit : off + 4 ≤ 400)
    (hstr_fit : off + MaxPage.str_size s.length ≤ 400) :
    MaxPage.get_int (MaxPage.set_int p off v) off = v ∧
    MaxPage.get_string (MaxPage.set_string p off s) off = s ∧
    bread (MaxPage.set_string p off s) off 4 =
      encode_int32 ((4 * s.length : Nat) : Int) ∧
    bread (MaxPage.set_string p off s) (off + 4) (4 * s.length) =
      encode_utf32 s.data := by
  refine ⟨?_, ?_, set_string_prefix_read p off s, set_string_payload_read p off s⟩
  · unfold MaxPage.get_int MaxPage.set_int
    rw [show (4 : Nat) = (encode_int32 v).length from (encode_int32_length v).symm,
      bread_bwrite_full, decode_encode_int32 v hlo hhi]
  · have hlen : 4 * s.length ≤ 396 := by
      unfold MaxPage.str_size at hstr_fit
      omega
    unfold MaxPage.get_string
    have hsize : MaxPage.get_int (MaxPage.set_string p off s) off =
        ((4 * s.length : Nat) : Int) := by
      unfold MaxPage.get_int
      rw [show (4 : Nat) =
        (encode_int32 ((4 * s.length : Nat) : Int)).length from
          (encode_int32_length _).symm]
      conv in bread _ off _ => rw [encode_int32_length]
      rw [set_string_prefix_read p off s]
      exact decode_encode_int32 _ (by omega) (by push_cast; omega)
    dsimp only
    rw [hsize]
    rcases Nat.eq_zero_or_pos s.length with hz | hpos
    · rw [if_pos (by left; simp [hz])]
      have hnil : s.data = [] := by
        have h0 : s.data.length = 0 := hz
        exact List.length_eq_zero.mp h0
      cases s with
      | mk data =>
        simp only at hnil
        subst hnil
        rfl
    · rw [if_neg (by push_cast; omega)]
      rw [show ((4 * s.length : Nat) : Int).toNat = 4 * s.length from by omega]
      rw [set_string_payload_read p off s, decode_encode_utf32]

theorem flush_log_unchanged (b : BufferSlot) (sys : Sys) :
    (b.flush sys).2.1.log = sys.log := by
  unfold BufferSlot.flush
  split <;> rfl

theorem flush_at_log_unchanged (sys : Sys) (i : Nat) :
    (flush_at sys i).1.log = sys.log :=
  flush_log_unchanged _ _

theorem flush_all_step_log (txnum : Int) (acc : Sys × List Act) (i : Nat) :
    (flush_all_step txnum acc i).1.log = acc.1.log := by
  unfold flush_all_step
  split
  · exact flush_at_log_unchanged _ _
  · rfl

theorem foldl_flush_step_log (txnum : Int) (l : List Nat) :
    ∀ acc : Sys × List Act,
      (l.foldl (flush_all_step txnum) acc).1.log = acc.1.log := by
  induction l with
  | nil => intro acc; rfl
  | cons x xs ih =>
    intro acc
    rw [List.foldl_cons, ih, flush_all_step_log]

theorem flush_all_log_unchanged (txnum : Int) (sys : Sys) :
    (BasicBufferMgr.flush_all txnum sys).1.log = sys.log :=
  foldl_flush_step_log txnum _ (sys, [])

theorem flush_trace_acts (b : BufferSlot) (sys : Sys) :
    ∀ a ∈ (b.flush sys).2.2,
      (∃ lsn, a = Act.force_log lsn) ∨ ∃ blk, a = Act.write_blk blk := by
  unfold BufferSlot.flush
  split
  · intro a ha
    simp only [List.mem_cons, List.not_mem_nil, or_false] at ha
    rcases ha with h | h
    · exact Or.inl ⟨_, h⟩
    · exact Or.inr ⟨_, h⟩
  · intro a ha
    simp at ha

theorem flush_all_step_trace (txnum : Int) (acc : Sys × List Act) (i : Nat)
    (hacc : ∀ a ∈ acc.2,
      (∃ lsn, a = Act.force_log lsn) ∨ ∃ blk, a = Act.write_blk blk) :
    ∀ a ∈ (flush_all_step txnum acc i).2,
      (∃ lsn, a = Act.force_log lsn) ∨ ∃ blk, a = Act.write_blk blk := by
  unfold flush_all_step
  split
  · intro a ha
    rcases List.mem_append.mp ha with h | h
    · exact hacc a h
    · exact flush_trace_acts _ _ a h
  · exact hacc

theorem foldl_flush_step_trace (txnum : Int) (l : List Nat) :
    ∀ acc : Sys × List Act,
      (∀ a ∈ acc.2,
        (∃ lsn, a = Act.force_log lsn) ∨ ∃ blk, a = Act.write_blk blk) →
      ∀ a ∈ (l.foldl (flush_all_step txnum) acc).2,
        (∃ lsn, a = Act.force_log lsn) ∨ ∃ blk, a = Act.write_blk blk := by
  induction l with
  | nil => intro acc hacc; exact hacc
  | cons x xs ih =>
    intro acc hacc
    rw [List.foldl_cons]
    exact ih _ (flush_all_step_trace txnum acc x hacc)

theorem finalize_record_currentblk (st : LogMgrSt) :
    st.finalize_record.currentblk = st.currentblk := rfl

theorem finalize_record_file_blocks (st : LogMgrSt) :
    st.finalize_record.file_blocks = st.file_blocks := rfl

theorem append_val_currentblk (st : LogMgrSt) (v : LogVal) :
    (st.append_val v).currentblk = st.currentblk := by
  cases v <;> rfl

theorem append_val_file_blocks (st : LogMgrSt) (v : LogVal) :
    (st.append_val v).file_blocks = st.file_blocks := by
  cases v <;> rfl

theorem write_vals_currentblk (rec : List LogVal) :
    ∀ st : LogMgrSt, (st.write_vals rec).currentblk = st.currentblk := by
  induction rec with
  | nil => intro st; rfl
  | cons v vs ih =>
    intro st
    show ((st.append_val v).write_vals vs).currentblk = st.currentblk
    rw [ih, append_val_currentblk]

theorem write_vals_file_blocks (rec : List LogVal) :
    ∀ st : LogMgrSt, (st.write_vals rec).file_blocks = st.file_blocks := by
  induction rec with
  | nil => intro st; rfl
  | cons v vs ih =>
    intro st
    show ((st.append_val v).write_vals vs).file_blocks = st.file_blocks
    rw [ih, append_val_file_blocks]

/-! ## The claim theorems -/

/-- **C1.** The two lock managers of two transactions share no state: after
one manager takes an exclusive lock on a block (its own table maps the block
to `-1`), a second, freshly constructed manager is still granted a shared
lock on the same block (`Except.ok`, no `LockAbortException`), because
`PageLockMgr.__init__` builds a fresh `PageLockTable` per instance.  At the
level of one table the conflict rule does hold: `slock` on a table holding an
exclusive lock aborts. -/
theorem c1_lock_table_per_transaction :
    PageLockMgr.xlock PageLockMgr.mk_new the_blk =
      .ok ⟨[(the_blk, -1)], [(the_blk, "X")]⟩ ∧
    PageLockTable.slock [(the_blk, -1)] the_blk = .error () ∧
    PageLockMgr.slock PageLockMgr.mk_new the_blk =
      .ok ⟨[(the_blk, 1)], [(the_blk, "S")]⟩ := by
  refine ⟨rfl, rfl, rfl⟩

/-- **C2.** Running `RecoveryMgr.recover` (as synthetic transaction 2) on the
crash state: the `SETINT` undo of unfinished transaction 1 is applied to the
buffer (its page cell holds the old value `0`) but the buffer is tagged with
the *record's* transaction id `1`, so `flush_all(2)` does not flush it and
the disk still holds tx 1's value `7`; a `CHECKPOINT` record is then
appended.  The persisted state thus still reflects a write of a non-finished
transaction. -/
theorem c2_recover_leaves_unfinished_write_on_disk :
    (RecoveryMgr.recover 2 crash_sys).map (fun p =>
      (p.1.disk the_blk 0,
       (p.1.pool.getD 0 BufferSlot.empty).contents 0,
       (p.1.pool.getD 0 BufferSlot.empty).modified_by,
       p.1.log)) =
    some (.intV 7, .intV 0, 1,
      [.start 1, .set_int_rec 1 the_blk 0 0, .checkpoint]) := by
  rfl

/-- **C3.** Flushing a dirty buffer slot (`modified_by` set; transaction ids
are positive) performs, in order: force the log up to the buffer's LSN, then
write the page to its bound block, then clear `modified_by`; the page
contents and binding are unchanged, and the block's new disk image is the
buffer's page. -/
theorem c3_flush_wal_order (b : BufferSlot) (sys : Sys) (bb : Blk)
    (hdirty : 0 < b.modified_by) (hblk : b.blk = some bb) :
    (b.flush sys).2.2 =
      [Act.force_log b.log_sequence_number, Act.write_blk bb] ∧
    (b.flush sys).1.modified_by = -1 ∧
    (b.flush sys).2.1.disk bb = b.contents ∧
    (b.flush sys).1.contents = b.contents ∧
    (b.flush sys).1.blk = b.blk := by
  unfold BufferSlot.flush
  rw [if_pos hdirty]
  simp [hblk]

theorem c3_flush_wal_order_witness :
    0 < dirty_buf.modified_by ∧ dirty_buf.blk = some the_blk ∧
    ((dirty_buf.flush empty_sys).2.2 =
      [Act.force_log dirty_buf.log_sequence_number, Act.write_blk the_blk] ∧
     (dirty_buf.flush empty_sys).1.modified_by = -1) := by
  refine ⟨by decide, rfl, ?_, ?_⟩
  · exact (c3_flush_wal_order dirty_buf empty_sys the_blk (by decide) rfl).1
  · exact (c3_flush_wal_order dirty_buf empty_sys the_blk (by decide) rfl).2.1

/-- **C4.** `Transaction.commit` produces exactly: the buffer flushes of this
transaction's modified buffers (only log-force and block-write actions),
then the `COMMIT` record append, then the log force up to that record's LSN,
then the lock release, then the unpinning — in that order. -/
theorem c4_commit_order (txnum : Int) (sys : Sys) :
    (Transaction.commit txnum sys).2 =
      (BasicBufferMgr.flush_all txnum sys).2 ++
        [Act.append_rec (.commit txnum), Act.force_log (sys.log.length : Int),
         Act.release_locks, Act.unpin_all] ∧
    ∀ a ∈ (BasicBufferMgr.flush_all txnum sys).2,
      (∃ lsn, a = Act.force_log lsn) ∨ ∃ blk, a = Act.write_blk blk := by
  constructor
  · show ((BasicBufferMgr.flush_all txnum sys).2 ++
      [Act.append_rec (.commit txnum),
       Act.force_log (((BasicBufferMgr.flush_all txnum sys).1.log.length : Nat) : Int)]) ++
      [Act.release_locks, Act.unpin_all] = _
    rw [flush_all_log_unchanged]
    simp [List.append_assoc]
  · exact foldl_flush_step_trace txnum _ (sys, []) (by intro a ha; simp at ha)

/-- **C5.** `RecoveryMgr.set_int`/`set_string` append an undo image: the log
record carries the *previous* value read from the buffer at the target
offset (the new value is not stored), and the returned LSN is that of the
appended record; for a block of a file whose name begins with `temp` nothing
is appended and the sentinel `-1 < 0` is returned. -/
theorem c5_undo_image_logging (txnum : Int) (b : BufferSlot) (off : Nat)
    (nv : Int) (ns : String) (log : List RRec) (bb : Blk)
    (hblk : b.blk = some bb) :
    (is_temp_block bb = false →
      RecoveryMgr.set_int txnum b off nv log =
        (log ++ [.set_int_rec txnum bb off (b.get_int off)],
         (log.length : Int)) ∧
      RecoveryMgr.set_string txnum b off ns log =
        (log ++ [.set_string_rec txnum bb off (b.get_string off)],
         (log.length : Int))) ∧
    (is_temp_block bb = true →
      RecoveryMgr.set_int txnum b off nv log = (log, -1) ∧
      RecoveryMgr.set_string txnum b off ns log = (log, -1)) ∧
    (-1 : Int) < 0 := by
  unfold RecoveryMgr.set_int RecoveryMgr.set_string
  rw [hblk]
  refine ⟨fun h => ?_, fun h => ?_, by norm_num⟩ <;>
    simp [h, log_append, Option.getD]

theorem c5_undo_image_logging_witness :
    dirty_buf.blk = some the_blk ∧
    is_temp_block the_blk = false ∧
    RecoveryMgr.set_int 1 dirty_buf 0 99 [] =
      ([.set_int_rec 1 the_blk 0 3], 0) := by
  refine ⟨rfl, by decide, ?_⟩
  have h := (c5_undo_image_logging 1 dirty_buf 0 99 "x" [] the_blk rfl).1
    (by decide)
  exact h.1

/-- **C6.** `BTreeIndex.get_data_rid` never returns on a positioned scan: its
body calls `self.get_data_rid()` — itself — with unchanged state whenever a
leaf page is open, so no recursion depth suffices to produce a value. -/
theorem c6_get_data_rid_diverges (fuel : Nat) (leaf : BTreeLeafSt) :
    BTreeIndex.get_data_rid fuel (some leaf) = none := by
  induction fuel with
  | zero => rfl
  | succ n ih => simpa [BTreeIndex.get_data_rid] using ih

/-- **C7.** Inverted `is_full`: inserting a third all-equal-key record into a
two-record leaf (record length 100, so three records fill the 400-byte
block) returns `none` *without* creating an overflow block or touching the
flag — while inserting a second record into a one-record leaf (room for one
more) *does* split off an overflow block and repoint the flag. -/
theorem c7_full_equal_leaf_not_split :
    BTreeLeaf.insert 100 full_leaf ⟨30, 3⟩ =
      ({ file := [⟨-1, [⟨5, 30, 3⟩, ⟨5, 10, 1⟩, ⟨5, 20, 2⟩]⟩],
         curblk := 0, currentslot := 0, searchkey := 5 }, none) ∧
    BTreeLeaf.insert 100 roomy_leaf ⟨30, 3⟩ =
      ({ file := [⟨1, [⟨5, 30, 3⟩]⟩, ⟨-1, [⟨5, 10, 1⟩]⟩],
         curblk := 0, currentslot := 0, searchkey := 5 }, none) := by
  refine ⟨rfl, rfl⟩

set_option maxRecDepth 40000 in
/-- **C8.** The new-block path of the log manager cannot execute:
`LogMgr.__init__` on an empty log file returns no manager (the
`clear_contents` `AttributeError`), and — resuming from a one-block log file
with tail pointer 0, so `currentpos = 4` — appending a record whose size
exactly equals the remaining space (98 integers, `4 + 98·4 = 396`) is routed
to the new-block path by the `>=` test and raises, writing the record into
no block at all; a record that leaves `currentpos + recsize` strictly below
`BLOCK_SIZE` is appended normally with the current block's number (0) as its
LSN. -/
theorem c8_new_block_path_raises :
    LogMgr.init "simpledb.log" [] = none ∧
    (LogMgr.init "simpledb.log" [existing_log_block]).map
      (fun st => st.currentpos + rec_size exact_fit_rec) = some 400 ∧
    (LogMgr.init "simpledb.log" [existing_log_block]).map
      (fun st => (LogMgr.append st exact_fit_rec).toOption) = some none ∧
    (LogMgr.init "simpledb.log" [existing_log_block]).map
      (fun st =>
        match LogMgr.append st [.intV 0] with
        | .ok p => some p.2
        | .error _ => none) = some (some 0) := by
  refine ⟨rfl, by decide, rfl, rfl⟩

theorem c9_page_value_roundtrip_witness :
    (-2147483648 : Int) ≤ -7 ∧ (-7 : Int) < 2147483648 ∧
    (3 : Nat) + 4 ≤ 400 ∧ 3 + MaxPage.str_size "ab".length ≤ 400 ∧
    MaxPage.get_int (MaxPage.set_int (fun _ => 0) 3 (-7)) 3 = -7 ∧
    MaxPage.get_string (MaxPage.set_string (fun _ => 0) 3 "ab") 3 = "ab" := by
  refine ⟨by norm_num, by norm_num, by norm_num, by decide, ?_, ?_⟩
  · exact (c9_page_value_roundtrip (fun _ => 0) 3 (-7) "ab" (by norm_num)
      (by norm_num) (by norm_num) (by decide)).1
  · exact (c9_page_value_roundtrip (fun _ => 0) 3 (-7) "ab" (by norm_num)
      (by norm_num) (by norm_num) (by decide)).2.1

/-- **C10.** A `BufferSlot` write with a negative (sentinel) LSN updates the
page contents and `modified_by` but leaves `lsn_of_last_modification`, the
block binding and the pin count unchanged; only a write with `lsn ≥ 0`
updates the stored LSN. -/
theorem c10_sentinel_lsn_frame (b : BufferSlot) (off : Nat) (v : Int)
    (s : String) (txnum lsn : Int) :
    (lsn < 0 →
      (b.set_int off v txnum lsn).log_sequence_number =
        b.log_sequence_number ∧
      (b.set_string off s txnum lsn).log_sequence_number =
        b.log_sequence_number) ∧
    (0 ≤ lsn →
      (b.set_int off v txnum lsn).log_sequence_number = lsn ∧
      (b.set_string off s txnum lsn).log_sequence_number = lsn) ∧
    (b.set_int off v txnum lsn).modified_by = txnum ∧
    (b.set_string off s txnum lsn).modified_by = txnum ∧
    (b.set_int off v txnum lsn).blk = b.blk ∧
    (b.set_string off s txnum lsn).blk = b.blk ∧
    (b.set_int off v txnum lsn).pins = b.pins ∧
    (b.set_string off s txnum lsn).pins = b.pins := by
  refine ⟨fun h => ⟨?_, ?_⟩, fun h => ⟨?_, ?_⟩, rfl, rfl, rfl, rfl, rfl, rfl⟩
  · show (if lsn ≥ 0 then lsn else b.log_sequence_number) = b.log_sequence_number
    rw [if_neg (by omega)]
  · show (if lsn ≥ 0 then lsn else b.log_sequence_number) = b.log_sequence_number
    rw [if_neg (by omega)]
  · show (if lsn ≥ 0 then lsn else b.log_sequence_number) = lsn
    rw [if_pos (by omega)]
  · show (if lsn ≥ 0 then lsn else b.log_sequence_number) = lsn
    rw [if_pos (by omega)]

theorem c10_sentinel_lsn_frame_witness :
    (-1 : Int) < 0 ∧
    (dirty_buf.set_int 0 99 2 (-1)).log_sequence_number =
      dirty_buf.log_sequence_number ∧
    (dirty_buf.set_int 0 99 2 (-1)).modified_by = 2 := by
  refine ⟨by norm_num, ?_, ?_⟩
  · exact ((c10_sentinel_lsn_frame dirty_buf 0 99 "x" 2 (-1)).1
      (by norm_num)).1
  · exact (c10_sentinel_lsn_frame dirty_buf 0 99 "x" 2 (-1)).2.2.1

end PySimpleDB
